import Mathlib

/-!
Shallow embedding of the TiVo MFS decoder (keplersj/tivo-mfs-experiment)
and proofs about its behaviour.  Raw disk bytes are modelled as `List Nat`
(each element a byte value), strings by their byte lists, and fallible
Rust code (`Result`, nom parsers, potential panics) by `Option`/`Except`
as documented at each definition.
-/

namespace TivoMfs

/-! ## Shared byte-level primitives (nom `streaming` combinators over `List Nat`) -/

/-- Big-endian value of a byte list (used where Rust does `u32::from_be_bytes`). -/
def be_val (l : List Nat) : Nat := l.foldl (fun a b => a * 256 + b) 0

/-- nom `be_u8`: consume one byte. `none` models `Err(Incomplete)`. -/
def be_u8 : List Nat → Option (Nat × List Nat)
  | b :: rest => some (b, rest)
  | _ => none

/-- nom `be_u16`: consume two bytes, big-endian. -/
def be_u16 : List Nat → Option (Nat × List Nat)
  | b0 :: b1 :: rest => some (b0 * 256 + b1, rest)
  | _ => none

/-- nom `be_u32`: consume four bytes, big-endian. -/
def be_u32 : List Nat → Option (Nat × List Nat)
  | b0 :: b1 :: b2 :: b3 :: rest =>
      some (((b0 * 256 + b1) * 256 + b2) * 256 + b3, rest)
  | _ => none

/-- nom `take(n)`: consume exactly `n` bytes. -/
def takeN (n : Nat) (input : List Nat) : Option (List Nat × List Nat) :=
  if n ≤ input.length then some (input.take n, input.drop n) else none

/-- nom `tag(t)`: the input must start with the byte sequence `t`. -/
def tagBytes (t : List Nat) (input : List Nat) : Option (List Nat × List Nat) :=
  if input.take t.length = t then some (t, input.drop t.length) else none

/-! ## `tivo-media-file-system/src/inode.rs` -/

namespace Tmfs

/-- `MFSINodeType` from inode.rs: the five legal object-type byte values. -/
inductive MFSINodeType where
  | node
  | file
  | stream
  | dir
  | db
deriving DecidableEq

/-- `MFSINodeType::parse`: one byte, which must be 0, 1, 2, 4 or 8. -/
def MFSINodeType.parse (input : List Nat) : Option (MFSINodeType × List Nat) :=
  match be_u8 input with
  | none => none
  | some (n, input) =>
    match n with
    | 0 => some (MFSINodeType.node, input)
    | 1 => some (MFSINodeType.file, input)
    | 2 => some (MFSINodeType.stream, input)
    | 4 => some (MFSINodeType.dir, input)
    | 8 => some (MFSINodeType.db, input)
    | _ => none

/-- `MFSINodeDataBlock`: one (sector, count) extent pair. -/
structure MFSINodeDataBlock where
  sector : Nat
  count : Nat
deriving DecidableEq

/-- `MFSINodeDataBlock::parse`: two big-endian u32s. -/
def MFSINodeDataBlock.parse (input : List Nat) :
    Option (MFSINodeDataBlock × List Nat) :=
  match be_u32 input with
  | none => none
  | some (sector, input) =>
    match be_u32 input with
    | none => none
    | some (count, input) => some ({ sector, count }, input)

/-- nom `count(p, n)`: run `p` exactly `n` times, collecting the results. -/
def countP (p : List Nat → Option (MFSINodeDataBlock × List Nat)) :
    Nat → List Nat → Option (List MFSINodeDataBlock × List Nat)
  | 0, input => some ([], input)
  | n + 1, input =>
    match p input with
    | none => none
    | some (x, input) =>
      match countP p n input with
      | none => none
      | some (xs, input) => some (x :: xs, input)

/-- `MFSINode` from inode.rs.  `last_modified` holds the raw 32-bit seconds
value that the code feeds to `Utc.timestamp`. -/
structure MFSINode where
  fsid : Nat
  refcount : Nat
  bootcycles : Nat
  bootsecs : Nat
  inode : Nat
  size : Nat
  blocksize : Nat
  blockused : Nat
  last_modified : Nat
  type : MFSINodeType
  zone : Nat
  checksum : Nat
  flags : Nat
  data : List Nat
  numblocks : Nat
  datablocks : List MFSINodeDataBlock
  partition_starting_sector : Nat
  sector_in_map : Nat
  sector_on_drive : Nat
deriving DecidableEq

/-- `INODE_DATA_IN_HEADER` flag constant. -/
def INODE_DATA_IN_HEADER : Nat := 0x40000000

/-- `MFSINode::parse` from inode.rs, step for step: fixed header fields, the
`0x91231ebc` signature tag, then the flag-dependent tail (inline data when
`flags == 0x40000000`, else a block count followed by that many extent pairs). -/
def MFSINode.parse (input : List Nat) (partition_starting_sector sector : Nat) :
    Option (MFSINode × List Nat) :=
  match be_u32 input with
  | none => none
  | some (fsid, input) =>
  match be_u32 input with
  | none => none
  | some (refcount, input) =>
  match be_u32 input with
  | none => none
  | some (bootcycles, input) =>
  match be_u32 input with
  | none => none
  | some (bootsecs, input) =>
  match be_u32 input with
  | none => none
  | some (inode, input) =>
  match takeN 4 input with
  | none => none
  | some (_, input) =>
  match be_u32 input with
  | none => none
  | some (size, input) =>
  match be_u32 input with
  | none => none
  | some (blocksize, input) =>
  match be_u32 input with
  | none => none
  | some (blockused, input) =>
  match be_u32 input with
  | none => none
  | some (last_modified, input) =>
  match MFSINodeType.parse input with
  | none => none
  | some (type0, input) =>
  match be_u8 input with
  | none => none
  | some (zone, input) =>
  match be_u16 input with
  | none => none
  | some (_pad, input) =>
  match tagBytes [0x91, 0x23, 0x1e, 0xbc] input with
  | none => none
  | some (_sig, input) =>
  match be_u32 input with
  | none => none
  | some (checksum, input) =>
  match be_u32 input with
  | none => none
  | some (flags, input) =>
  -- The source tests `flags == INODE_DATA_IN_HEADER` three times in a row on the
  -- unchanged `flags` (for `data`, `numblocks` and `datablocks`); the three tests
  -- collapse into a single branch.  In the flag branch the source sets
  -- `data = input.to_vec()` and `input = &[]`, `numblocks = 0`, `datablocks = vec![]`.
  if flags = INODE_DATA_IN_HEADER then
    some
      ({ fsid, refcount, bootcycles, bootsecs, inode, size, blocksize, blockused,
         last_modified, type := type0, zone, checksum, flags, data := input,
         numblocks := 0, datablocks := [], partition_starting_sector,
         sector_in_map := sector,
         sector_on_drive := partition_starting_sector + sector }, ([] : List Nat))
  else
    match be_u32 input with
    | none => none
    | some (numblocks, input) =>
    match countP MFSINodeDataBlock.parse numblocks input with
    | none => none
    | some (datablocks, input) =>
    some
      ({ fsid, refcount, bootcycles, bootsecs, inode, size, blocksize, blockused,
         last_modified, type := type0, zone, checksum, flags, data := ([] : List Nat),
         numblocks, datablocks, partition_starting_sector, sector_in_map := sector,
         sector_on_drive := partition_starting_sector + sector }, input)

end Tmfs

/-! ## `ovit/src/lib.rs` -/

namespace OvitLib

/-- `fsid_hash` from ovit/src/lib.rs: `(fsid * 0x106d9) & size`.  The bitmask
is literally `& size` (the slot count itself), not `& (size - 1)` and not a
modulus. -/
def fsid_hash (fsid size : Nat) : Nat := (fsid * 0x106d9) &&& size

/-- `sector_for_inode` from ovit/src/lib.rs: `(2 * inode) + 1122`. -/
def sector_for_inode (inode : Nat) : Nat := 2 * inode + 1122

/-- The probe loop of `TivoDrive::get_inode_from_fsid`.  `disk sector` models
`MFSINode::from_file_at_sector(&mut self.source_file,
self.zonemap.partition_starting_sector, sector, self.is_byte_swapped)`
with the file, partition offset and byte-swap flag fixed: `none` is a read or
parse error (which the `?` operator propagates as `Err`).  State: the current
probe index `current_inode_id` and the current record `current_inode`; the
loop runs while `current_inode.fsid != fsid && current_inode.flags ==
0x8000_0000 && (current_inode_id + 1) % inode_count != inode_id_base`,
advancing `current_inode_id += 1` (no wraparound is applied to the index that
is read) and re-reading at `sector_for_inode(current_inode_id)`.  `fuel`
bounds the modelled iterations: the result is `none` when the loop has not
exited within `fuel` steps, `some none` for `Err` (read failure or the final
NotFound report), `some (some i)` for `Ok(i)`.  The returned list is the
sequence of sectors read by the loop.  (In Lean `_ % 0` is total while the
Rust `%` would panic for `inode_count == 0`; the theorems below always take
`0 < inode_count`.) -/
def probe_loop (disk : Nat → Option Tmfs.MFSINode) (fsid inode_count inode_id_base : Nat) :
    Nat → Nat → Tmfs.MFSINode → List Nat × Option (Option Tmfs.MFSINode)
  | 0, _, _ => ([], none)
  | fuel + 1, current_inode_id, current_inode =>
    if current_inode.fsid ≠ fsid ∧ current_inode.flags = 0x80000000 ∧
        (current_inode_id + 1) % inode_count ≠ inode_id_base then
      match disk (sector_for_inode (current_inode_id + 1)) with
      | none => ([sector_for_inode (current_inode_id + 1)], some none)
      | some nxt =>
        let r := probe_loop disk fsid inode_count inode_id_base fuel
          (current_inode_id + 1) nxt
        (sector_for_inode (current_inode_id + 1) :: r.1, r.2)
    else
      ([], some (if current_inode.fsid = fsid then some current_inode else none))

/-- `TivoDrive::get_inode_from_fsid` from ovit/src/lib.rs.  `inode_count`
stands for `self.zonemap.inode_iter().unwrap().len()` and `disk` for the
sector reads, as in `probe_loop`.  The first probe reads
`sector_for_inode(fsid_hash(fsid, inode_count))`; on an fsid match it returns
`Ok` at once, otherwise it remembers `inode_id_base = first_inode.inode` and
enters the linear probe.  Returns the probed sectors in order plus the
result (`some none` = `Err`, i.e. NotFound or a propagated read error). -/
def get_inode_from_fsid (disk : Nat → Option Tmfs.MFSINode) (fuel inode_count fsid : Nat) :
    List Nat × Option (Option Tmfs.MFSINode) :=
  let inode := fsid_hash fsid inode_count
  let sector := sector_for_inode inode
  match disk sector with
  | none => ([sector], some none)
  | some first_inode =>
    if first_inode.fsid = fsid then ([sector], some (some first_inode))
    else
      let r := probe_loop disk fsid inode_count first_inode.inode fuel inode first_inode
      (sector :: r.1, r.2)

end OvitLib

/-! ## `src/ovit/mod.rs` -/

namespace OvitMod

/-- State machine for the UTF-8 validator: `need` continuation bytes are
still expected, the first of them constrained to `lo..=hi` (the rest to
`0x80..=0xBF`).  From the start state a lead byte selects the shortest-form
ranges of RFC 3629: `00..=7F`; `C2..=DF` + 1 continuation; `E0 A0..=BF`,
`E1..=EC 80..=BF`, `ED 80..=9F`, `EE..=EF 80..=BF` + 1 continuation;
`F0 90..=BF`, `F1..=F3 80..=BF`, `F4 80..=8F` + 2 continuations. -/
def validUtf8Aux : Nat → Nat → Nat → List Nat → Bool
  | 0, _, _, [] => true
  | 0, _, _, b :: rest =>
    if b ≤ 0x7F then validUtf8Aux 0 0 0 rest
    else if 0xC2 ≤ b && b ≤ 0xDF then validUtf8Aux 1 0x80 0xBF rest
    else if b = 0xE0 then validUtf8Aux 2 0xA0 0xBF rest
    else if 0xE1 ≤ b && b ≤ 0xEC then validUtf8Aux 2 0x80 0xBF rest
    else if b = 0xED then validUtf8Aux 2 0x80 0x9F rest
    else if 0xEE ≤ b && b ≤ 0xEF then validUtf8Aux 2 0x80 0xBF rest
    else if b = 0xF0 then validUtf8Aux 3 0x90 0xBF rest
    else if 0xF1 ≤ b && b ≤ 0xF3 then validUtf8Aux 3 0x80 0xBF rest
    else if b = 0xF4 then validUtf8Aux 3 0x80 0x8F rest
    else false
  | _ + 1, _, _, [] => false
  | need + 1, lo, hi, b :: rest =>
    if lo ≤ b && b ≤ hi then validUtf8Aux need 0x80 0xBF rest else false

/-- UTF-8 validity of a byte list, mirroring what Rust's `String::from_utf8`
accepts. -/
def validUtf8 (l : List Nat) : Bool := validUtf8Aux 0 0 0 l

/-- `str::trim_matches(char::from(0))`: strip NUL bytes from both ends
(strings are modelled by their byte lists). -/
def trimZeros (l : List Nat) : List Nat :=
  ((l.dropWhile (· == 0)).reverse.dropWhile (· == 0)).reverse

/-- `get_string_from_bytes_range(bytes, lo..=hi)`: `bytes.get(lo..=hi)`
(range out of bounds → `Err("Could not get bytes")`) then `String::from_utf8`
(invalid UTF-8 → `Err`).  Both error paths are `none`. -/
def get_string_from_bytes_range (bytes : List Nat) (lo hi : Nat) : Option (List Nat) :=
  if lo ≤ hi + 1 ∧ hi < bytes.length then
    if validUtf8 ((bytes.drop lo).take (hi + 1 - lo)) then
      some ((bytes.drop lo).take (hi + 1 - lo))
    else none
  else none

/-- `get_u32_from_bytes_range(bytes, lo..=hi)`: `bytes.get(range)` with
`.expect(...)` and `try_into().unwrap()` — both panics are modelled as
`none`; on success the big-endian u32 value of the 4 addressed bytes. -/
def get_u32_from_bytes_range (bytes : List Nat) (lo hi : Nat) : Option Nat :=
  if lo ≤ hi + 1 ∧ hi < bytes.length ∧ hi + 1 - lo = 4 then
    some (be_val ((bytes.drop lo).take 4))
  else none

/-- One 16-bit word of `correct_byte_order`: `u16::from_be_bytes` on the pair,
`swap_bytes` unless `is_byte_swapped`, then `to_ne_bytes`.  `le` says whether
the native byte order of the host is little-endian (the source is
platform-dependent through `to_ne_bytes`). -/
def pairOut (le is_byte_swapped : Bool) (a b : Nat) : Nat × Nat :=
  let word := a * 256 + b
  let out := if is_byte_swapped then word else (word % 256) * 256 + word / 256
  if le then (out % 256, out / 256) else (out / 256, out % 256)

/-- `correct_byte_order(raw_buffer, is_byte_swapped)` from src/ovit/mod.rs:
`chunks_exact(2)` (a trailing odd byte is dropped), per-word map as in
`pairOut`, then flatten. -/
def correct_byte_order (le : Bool) : List Nat → Bool → List Nat
  | a :: b :: rest, is_byte_swapped =>
    (pairOut le is_byte_swapped a b).1 :: (pairOut le is_byte_swapped a b).2 ::
      correct_byte_order le rest is_byte_swapped
  | _, _ => []

/-- `positioned_io::ReadAt::read_at` for a `File` over the byte image: copies
the available image bytes at `offset` over the front of `buf`, leaves the
rest of `buf` untouched, and succeeds (reading at or past end-of-file is a
short read of 0 bytes, not an error). -/
def read_at (image : List Nat) (offset : Nat) (buf : List Nat) : List Nat :=
  (image.drop offset).take buf.length ++
    buf.drop ((image.drop offset).take buf.length).length

/-- `get_blocks_from_drive(file, location, count)`: a zeroed buffer of
`APM_BLOCK_SIZE * count = 512 * count` bytes, `read_at(location * 512)` into
it, `Ok(buffer)` on success.  The `Err` branch fires only on an OS-level read
error, which the pure image model cannot produce, so the result is always
`some`. -/
def get_blocks_from_drive (image : List Nat) (location : Nat) (count : Nat) :
    Option (List Nat) :=
  some (read_at image (location * 512) (List.replicate (512 * count) 0))

/-- `get_block_from_drive(file, location)` = `get_blocks_from_drive` with
count 1. -/
def get_block_from_drive (image : List Nat) (location : Nat) : Option (List Nat) :=
  get_blocks_from_drive image location 1

/-- `Partition` from src/ovit/mod.rs.  String fields are byte lists; `status`
keeps the raw u32 that the source formats as a hex string. -/
structure Partition where
  signature : List Nat
  partitions_total : Nat
  starting_sector : Nat
  sector_size : Nat
  name : List Nat
  type : List Nat
  starting_data_sector : Nat
  data_sectors : Nat
  status : Nat
deriving DecidableEq

/-- `Partition::new(bytes)`: signature from bytes 0..=1 via `.expect` (panic
→ `none`), `Err("Invalid signature in sector")` when it is not "PM"
(bytes [0x50, 0x4D]), then the fixed-offset fields, with every `.expect` /
internal panic modelled as `none`; `name` and `type` are NUL-trimmed. -/
def Partition.new (bytes : List Nat) : Option (Except String Partition) :=
  match get_string_from_bytes_range bytes 0 1 with
  | none => none
  | some signature =>
  if signature ≠ [0x50, 0x4D] then some (Except.error "Invalid signature in sector")
  else
  match get_u32_from_bytes_range bytes 4 7 with
  | none => none
  | some partitions_total =>
  match get_u32_from_bytes_range bytes 8 11 with
  | none => none
  | some starting_sector =>
  match get_u32_from_bytes_range bytes 12 15 with
  | none => none
  | some sector_size =>
  match get_string_from_bytes_range bytes 16 47 with
  | none => none
  | some rawname =>
  match get_string_from_bytes_range bytes 48 79 with
  | none => none
  | some rawtype =>
  match get_u32_from_bytes_range bytes 80 83 with
  | none => none
  | some starting_data_sector =>
  match get_u32_from_bytes_range bytes 84 87 with
  | none => none
  | some data_sectors =>
  match get_u32_from_bytes_range bytes 88 91 with
  | none => none
  | some status =>
  some (Except.ok
    { signature, partitions_total, starting_sector, sector_size,
      name := trimZeros rawname, type := trimZeros rawtype,
      starting_data_sector, data_sectors, status })

end OvitMod

namespace OvitMod

/-- `MFSVolumeHeader` from src/ovit/mod.rs.  `magic` keeps the raw u32 that
the source formats with `format!("{:X}", ...)`; `partitionlist` is the
NUL-trimmed byte list of the embedded string. -/
structure MFSVolumeHeader where
  state : Nat
  magic : Nat
  checksum : Nat
  root_fsid : Nat
  firstpartsize : Nat
  partitionlist : List Nat
  total_sectors : Nat
  zonemap_ptr : Nat
  backup_zonemap_ptr : Nat
  zonemap_size : Nat
  next_fsid : Nat
deriving DecidableEq

/-- `MFSVolumeHeader::from_bytes(block)` from src/ovit/mod.rs: fixed-offset
field extraction only — no check of any kind is made on the magic word at
bytes 4..=7 (or on anything else); `none` models the `.expect` panics inside
the byte-range helpers. -/
def MFSVolumeHeader.from_bytes (block : List Nat) : Option MFSVolumeHeader :=
  match get_u32_from_bytes_range block 0 3 with
  | none => none
  | some state =>
  match get_u32_from_bytes_range block 4 7 with
  | none => none
  | some magic =>
  match get_u32_from_bytes_range block 8 11 with
  | none => none
  | some checksum =>
  match get_u32_from_bytes_range block 16 19 with
  | none => none
  | some root_fsid =>
  match get_u32_from_bytes_range block 20 23 with
  | none => none
  | some firstpartsize =>
  match get_string_from_bytes_range block 36 163 with
  | none => none
  | some rawlist =>
  match get_u32_from_bytes_range block 164 167 with
  | none => none
  | some total_sectors =>
  match get_u32_from_bytes_range block 196 199 with
  | none => none
  | some zonemap_ptr =>
  match get_u32_from_bytes_range block 200 203 with
  | none => none
  | some backup_zonemap_ptr =>
  match get_u32_from_bytes_range block 204 207 with
  | none => none
  | some zonemap_size =>
  match get_u32_from_bytes_range block 216 219 with
  | none => none
  | some next_fsid =>
  some { state, magic, checksum, root_fsid, firstpartsize,
         partitionlist := trimZeros rawlist, total_sectors, zonemap_ptr,
         backup_zonemap_ptr, zonemap_size, next_fsid }

/-- `MFSZoneMap` from src/ovit/mod.rs (the `from_bytes` flavour used by
`TivoDrive::from_disk_image` for the zone-map chain walk). -/
structure MFSZoneMap where
  sector : Nat
  backup_sector : Nat
  zonemap_size : Nat
  next_zonemap_ptr : Nat
  backup_next_zonemap_ptr : Nat
  next_zonemap_size : Nat
  type : Nat
  crc : Nat
  zone_start : Nat
  next_zone_ptr1 : Nat
  zone_size : Nat
  per_chunk : Nat
  buddy_size : Nat
deriving DecidableEq

/-- `MFSZoneMap::from_bytes(block)`: fixed-offset u32 fields; `none` models
the `.expect` panic when the block is too short. -/
def MFSZoneMap.from_bytes (block : List Nat) : Option MFSZoneMap :=
  match get_u32_from_bytes_range block 0 3 with
  | none => none
  | some sector =>
  match get_u32_from_bytes_range block 4 7 with
  | none => none
  | some backup_sector =>
  match get_u32_from_bytes_range block 8 11 with
  | none => none
  | some zonemap_size =>
  match get_u32_from_bytes_range block 12 15 with
  | none => none
  | some next_zonemap_ptr =>
  match get_u32_from_bytes_range block 16 19 with
  | none => none
  | some backup_next_zonemap_ptr =>
  match get_u32_from_bytes_range block 20 23 with
  | none => none
  | some next_zonemap_size =>
  match get_u32_from_bytes_range block 28 31 with
  | none => none
  | some type0 =>
  match get_u32_from_bytes_range block 36 39 with
  | none => none
  | some crc =>
  match get_u32_from_bytes_range block 40 43 with
  | none => none
  | some zone_start =>
  match get_u32_from_bytes_range block 44 47 with
  | none => none
  | some next_zone_ptr1 =>
  match get_u32_from_bytes_range block 48 51 with
  | none => none
  | some zone_size =>
  match get_u32_from_bytes_range block 52 55 with
  | none => none
  | some per_chunk =>
  match get_u32_from_bytes_range block 60 63 with
  | none => none
  | some buddy_size =>
  some { sector, backup_sector, zonemap_size, next_zonemap_ptr,
         backup_next_zonemap_ptr, next_zonemap_size, type := type0, crc,
         zone_start, next_zone_ptr1, zone_size, per_chunk, buddy_size }

/-- The zone-map chain loop of `TivoDrive::from_disk_image` (src/ovit/mod.rs):
while `next_zone_ptr != 0`, read `next_zone_size` blocks at
`app_region.starting_sector + next_zone_ptr` (a failed read prints
"Lazilly continuing" and breaks, keeping the zones collected so far),
normalize the byte order, parse with `MFSZoneMap::from_bytes` (whose internal
panic would abort: modelled `some none`), push the node and follow its
`next_zonemap_ptr` / `next_zonemap_size`.  `read_blocks loc cnt` models
`get_blocks_from_drive(&file, loc, cnt)` including its possible `Err`; `fuel`
bounds the modelled iterations (outer `none` = not terminated within fuel);
`some (some zones)` is the list the loop leaves in `zones`. -/
def walk_zonemaps (read_blocks : Nat → Nat → Option (List Nat)) (le swapped : Bool)
    (app_start : Nat) :
    Nat → Nat → Nat → List MFSZoneMap → Option (Option (List MFSZoneMap))
  | 0, _, _, _ => none
  | fuel + 1, next_zone_ptr, next_zone_size, zones =>
    if next_zone_ptr = 0 then some (some zones)
    else
      match read_blocks (app_start + next_zone_ptr) next_zone_size with
      | none => some (some zones)
      | some blocks =>
        match MFSZoneMap.from_bytes (correct_byte_order le blocks swapped) with
        | none => some none
        | some zonemap =>
          walk_zonemaps read_blocks le swapped app_start fuel
            zonemap.next_zonemap_ptr zonemap.next_zonemap_size (zones ++ [zonemap])

/-- The zone-map stage of `TivoDrive::from_disk_image`: read one block at
`app_region.starting_sector + volume_header.zonemap_ptr` (`.unwrap()`: a read
failure panics, modelled `some none`), normalize and parse the first zone
map, then run the chain loop seeded with `zones = vec![first_zonemap]` and
the first node's next pointer/size. -/
def zone_stage (read_blocks : Nat → Nat → Option (List Nat)) (le swapped : Bool)
    (app_start zonemap_ptr fuel : Nat) : Option (Option (List MFSZoneMap)) :=
  match read_blocks (app_start + zonemap_ptr) 1 with
  | none => some none
  | some blocks =>
    match MFSZoneMap.from_bytes (correct_byte_order le blocks swapped) with
    | none => some none
    | some first_zonemap =>
      walk_zonemaps read_blocks le swapped app_start fuel
        first_zonemap.next_zonemap_ptr first_zonemap.next_zonemap_size [first_zonemap]

/-- The termination/step invariant of a zone-map chain, as read through
`read_blocks` + `correct_byte_order` + `MFSZoneMap.from_bytes`: the listed
nodes are produced in link order, and after the last listed node the chain
either reaches a zero `next` pointer or the next block-range read fails. -/
def zone_chain (read_blocks : Nat → Nat → Option (List Nat)) (le swapped : Bool)
    (app_start : Nat) : Nat → Nat → List MFSZoneMap → Prop
  | ptr, size, [] => ptr = 0 ∨ read_blocks (app_start + ptr) size = none
  | ptr, size, z :: zs => ptr ≠ 0 ∧
      (read_blocks (app_start + ptr) size).bind
        (fun blocks => MFSZoneMap.from_bytes (correct_byte_order le blocks swapped)) =
        some z ∧
      zone_chain read_blocks le swapped app_start z.next_zonemap_ptr z.next_zonemap_size zs

/-- The MFS application-region lookup of `TivoDrive::from_disk_image` (both
src/ovit/mod.rs and ovit/src/lib.rs):
`partition_map.partitions.iter().find(|p| p.r#type == "MFS")`, whose result
the source immediately `.unwrap()`s — a `none` here is therefore a panic of
`from_disk_image`, not an `Err` return. -/
def find_mfs_partition (partitions : List Partition) : Option Partition :=
  partitions.find? (fun p => p.type = [0x4D, 0x46, 0x53])

end OvitMod

/-! ## `src/ovit/media_file_system.rs` -/

namespace Mfs

/-- The 128-byte `string` parser from media_file_system.rs: `take(128)`,
`String::from_utf8` (failure → nom Error), NUL-trim both ends. -/
def stringP (input : List Nat) : Option (List Nat × List Nat) :=
  match takeN 128 input with
  | none => none
  | some (str_bytes, input) =>
    if OvitMod.validUtf8 str_bytes then some (OvitMod.trimZeros str_bytes, input)
    else none

/-- `MFSVolumeHeader` from media_file_system.rs (the nom-parser flavour). -/
structure MFSVolumeHeader where
  state : Nat
  checksum : Nat
  root_fsid : Nat
  firstpartsize : Nat
  partitionlist : List Nat
  total_sectors : Nat
  next_zonemap_sector : Nat
  next_zonemap_backup_sector : Nat
  next_zonemap_partition_size : Nat
  next_fsid : Nat
deriving DecidableEq

/-- `MFSVolumeHeader::parse` from media_file_system.rs, step for step.  The
magic word is consumed by `tag([0xAB, 0xBA, 0xFE, 0xED])`: only the 32-bit
magic `0xABBAFEED` is accepted — there is no 64-bit (`0xEBBAFEED`) branch. -/
def MFSVolumeHeader.parse (input : List Nat) : Option (MFSVolumeHeader × List Nat) :=
  match be_u32 input with
  | none => none
  | some (state, input) =>
  match tagBytes [0xAB, 0xBA, 0xFE, 0xED] input with
  | none => none
  | some (_, input) =>
  match be_u32 input with
  | none => none
  | some (checksum, input) =>
  match takeN 4 input with
  | none => none
  | some (_, input) =>
  match be_u32 input with
  | none => none
  | some (root_fsid, input) =>
  match takeN 4 input with
  | none => none
  | some (_, input) =>
  match be_u32 input with
  | none => none
  | some (firstpartsize, input) =>
  match takeN 4 input with
  | none => none
  | some (_, input) =>
  match takeN 4 input with
  | none => none
  | some (_, input) =>
  match stringP input with
  | none => none
  | some (partitionlist, input) =>
  match be_u32 input with
  | none => none
  | some (total_sectors, input) =>
  match takeN 4 input with
  | none => none
  | some (_, input) =>
  match be_u32 input with
  | none => none
  | some (_logstart, input) =>
  match be_u32 input with
  | none => none
  | some (_lognsectors, input) =>
  match be_u32 input with
  | none => none
  | some (_volhdrlogstamp, input) =>
  match be_u32 input with
  | none => none
  | some (_unkstart, input) =>
  match be_u32 input with
  | none => none
  | some (_unksectors, input) =>
  match be_u32 input with
  | none => none
  | some (_unkstamp, input) =>
  match be_u32 input with
  | none => none
  | some (next_zonemap_sector, input) =>
  match be_u32 input with
  | none => none
  | some (next_zonemap_backup_sector, input) =>
  match be_u32 input with
  | none => none
  | some (_next_zonemap_sector_length, input) =>
  match be_u32 input with
  | none => none
  | some (next_zonemap_partition_size, input) =>
  match be_u32 input with
  | none => none
  | some (_next_zonemap_min_allocation, input) =>
  match be_u32 input with
  | none => none
  | some (next_fsid, input) =>
  match be_u32 input with
  | none => none
  | some (_bootcycles, input) =>
  match be_u32 input with
  | none => none
  | some (_bootsecs, input) =>
  match takeN 4 input with
  | none => none
  | some (_, input) =>
  some ({ state, checksum, root_fsid, firstpartsize, partitionlist,
          total_sectors, next_zonemap_sector, next_zonemap_backup_sector,
          next_zonemap_partition_size, next_fsid }, input)

end Mfs

/-! ## `tivo-media-file-system/src/inode.rs`: the inode iterator -/

namespace Tmfs

/-- `MFSINode::from_path_at_sector(path, partition_starting_sector, sector,
is_byte_swapped)`: fetch the 512-byte block at
`partition_starting_sector + sector` (`get_block_from_file`, whose `Err` and
the byte-swap handling are folded into the abstract `get_block`), then
`MFSINode::parse`; any failure is `Err`, i.e. `none`. -/
def from_path_at_sector (get_block : Nat → Option (List Nat))
    (partition_starting_sector sector : Nat) : Option MFSINode :=
  match get_block (partition_starting_sector + sector) with
  | none => none
  | some inode_bytes =>
    match MFSINode.parse inode_bytes partition_starting_sector sector with
    | none => none
    | some (inode, _) => some inode

/-- The mutable state of `MFSINodeIter` (the path and byte-swap flag live in
the abstract `get_block`). -/
structure MFSINodeIter where
  partition_starting_sector : Nat
  next_inode_sector : Nat
  last_inode_sector : Nat
deriving DecidableEq

/-- `MFSINodeIter::next`: while `next_inode_sector != last_inode_sector + 1`,
read and parse the inode at `next_inode_sector` (an `Err` ends the iteration
with `None`), then advance by 2 sectors ("Every inode exists on the drive
twice"). -/
def iter_next (get_block : Nat → Option (List Nat)) (it : MFSINodeIter) :
    Option (MFSINode × MFSINodeIter) :=
  if it.next_inode_sector ≠ it.last_inode_sector + 1 then
    match from_path_at_sector get_block it.partition_starting_sector
        it.next_inode_sector with
    | none => none
    | some inode =>
      some (inode, { it with next_inode_sector := it.next_inode_sector + 2 })
  else none

/-- Drain the iterator: the (finite, fuel-bounded) list of inodes that
repeated `MFSINodeIter::next` calls yield. -/
def iter_collect (get_block : Nat → Option (List Nat)) :
    Nat → MFSINodeIter → List MFSINode
  | 0, _ => []
  | fuel + 1, it =>
    match iter_next get_block it with
    | none => []
    | some (inode, it2) => inode :: iter_collect get_block fuel it2

end Tmfs

/-! ## Concrete sample data for the theorems -/

/-- A 68-byte raw inode record: fsid 1, inode number 7, type File, signature
present, flags 0, one (sector, count) extent pair. -/
def sampleInodeBytes : List Nat :=
  [0, 0, 0, 1] ++ [0, 0, 0, 0] ++ [0, 0, 0, 0] ++ [0, 0, 0, 0] ++ [0, 0, 0, 7] ++
  [9, 9, 9, 9] ++ [0, 0, 0, 3] ++ [0, 0, 2, 0] ++ [0, 0, 0, 1] ++ [1, 2, 3, 4] ++
  [1] ++ [0] ++ [0, 0] ++ [0x91, 0x23, 0x1e, 0xbc] ++ [0, 0, 0, 0] ++ [0, 0, 0, 0] ++
  [0, 0, 0, 1] ++ [0, 0, 0, 5] ++ [0, 0, 0, 2]

/-- An in-use, non-matching inode record placed at logical slot `k` of the
sample inode table: fsid `1000 + k` (never equal to the probed fsid 1), inode
number `k`, in-use flags word `0x80000000`. -/
def slotRec (k : Nat) : Tmfs.MFSINode :=
  { fsid := 1000 + k, refcount := 0, bootcycles := 0, bootsecs := 0, inode := k,
    size := 0, blocksize := 0, blockused := 0, last_modified := 0,
    type := Tmfs.MFSINodeType.file, zone := 0, checksum := 0, flags := 0x80000000,
    data := [], numblocks := 0, datablocks := [],
    partition_starting_sector := 0, sector_in_map := 0, sector_on_drive := 0 }

/-- A fully occupied sample inode table with 5 logical slots (sectors
1122,1124,...,1130) and, beyond the zone, two further well-formed records at
sectors 1132 and 1134: every readable slot is in-use and none matches fsid 1. -/
def fullDisk5 : Nat → Option Tmfs.MFSINode :=
  fun s => if s % 2 = 0 ∧ 1122 ≤ s ∧ s ≤ 1134 then some (slotRec ((s - 1122) / 2)) else none

/-- A 64-byte zone-map block whose only non-zero fields are
`next_zonemap_ptr = p` (bytes 12..=15) and `next_zonemap_size = s`
(bytes 20..=23), for `p, s < 256`. -/
def zmBlock (p s : Nat) : List Nat :=
  List.replicate 12 0 ++ [0, 0, 0, p] ++ List.replicate 4 0 ++ [0, 0, 0, s] ++
    List.replicate 40 0

/-- The zone-map record that `zmBlock p s` parses to. -/
def zmRec (p s : Nat) : OvitMod.MFSZoneMap :=
  { sector := 0, backup_sector := 0, zonemap_size := 0, next_zonemap_ptr := p,
    backup_next_zonemap_ptr := 0, next_zonemap_size := s, type := 0, crc := 0,
    zone_start := 0, next_zone_ptr1 := 0, zone_size := 0, per_chunk := 0,
    buddy_size := 0 }

/-- Block reads for a synthetic 3-node zone-map chain in an application region
starting at sector 100: nodes at pointers 5 → 7 → 9, the last with a zero
next pointer. -/
def rbChain : Nat → Nat → Option (List Nat) := fun loc _cnt =>
  if loc = 105 then some (zmBlock 7 1)
  else if loc = 107 then some (zmBlock 9 1)
  else if loc = 109 then some (zmBlock 0 0)
  else none

/-- A 512-byte volume-header block whose magic word (bytes 4..=7) is the
64-bit magic `0xEBBAFEED`; all other bytes zero. -/
def ebbaBlock : List Nat := [0, 0, 0, 0, 0xEB, 0xBA, 0xFE, 0xED] ++ List.replicate 504 0

/-- A 512-byte volume-header block with the 32-bit magic `0xABBAFEED`. -/
def abbaBlock : List Nat := [0, 0, 0, 0, 0xAB, 0xBA, 0xFE, 0xED] ++ List.replicate 504 0

/-- A 512-byte volume-header block whose magic word is `0xDEADBEEF` —
neither of the two documented constants. -/
def deadbeefBlock : List Nat := [0, 0, 0, 0, 0xDE, 0xAD, 0xBE, 0xEF] ++ List.replicate 504 0

/-- A 512-byte partition block whose first two bytes `0xFF 0xFF` are not
valid UTF-8 (and in particular are not "PM"). -/
def badSigBlock : List Nat := 0xFF :: 0xFF :: List.replicate 510 0

/-- A 512-byte partition block whose first two bytes are the ASCII "AB" —
valid UTF-8 but not the "PM" signature. -/
def abSigBlock : List Nat := 0x41 :: 0x42 :: List.replicate 510 0

/-- A parsed partition entry of type "Apple_Free" (not "MFS"). -/
def applefreePart : OvitMod.Partition :=
  { signature := [0x50, 0x4D], partitions_total := 1, starting_sector := 0,
    sector_size := 512, name := [],
    type := [0x41, 0x70, 0x70, 0x6C, 0x65, 0x5F, 0x46, 0x72, 0x65, 0x65],
    starting_data_sector := 0, data_sectors := 0, status := 0 }

/-- Block reads for a 2-slot inode zone at sectors 1000..1003 (partition
start 0): the logical slots 1000 and 1002 hold `sampleInodeBytes`. -/
def gb8 : Nat → Option (List Nat) := fun s =>
  if s = 1000 ∨ s = 1002 then some sampleInodeBytes else none

/-- The inode record that `sampleInodeBytes` parses to at partition start
`pss`, sector `sec`. -/
def sampleParsedInode (pss sec : Nat) : Tmfs.MFSINode :=
  { fsid := 1, refcount := 0, bootcycles := 0, bootsecs := 0, inode := 7,
    size := 3, blocksize := 0x200, blockused := 1, last_modified := 0x01020304,
    type := Tmfs.MFSINodeType.file, zone := 0, checksum := 0, flags := 0,
    data := [], numblocks := 1, datablocks := [{ sector := 5, count := 2 }],
    partition_starting_sector := pss, sector_in_map := sec,
    sector_on_drive := pss + sec }

/-! ## Helper lemmas -/

theorem be_u32_shape {l : List Nat} {p : Nat × List Nat} (h : be_u32 l = some p) :
    p.1 = be_val (l.take 4) ∧ p.2 = l.drop 4 ∧ 4 ≤ l.length := by
  match l with
  | [] => simp [be_u32] at h
  | [_] => simp [be_u32] at h
  | [_, _] => simp [be_u32] at h
  | [_, _, _] => simp [be_u32] at h
  | b0 :: b1 :: b2 :: b3 :: r =>
    have hp : p = (((b0 * 256 + b1) * 256 + b2) * 256 + b3, r) := by
      simpa [be_u32] using h.symm
    subst hp
    simp [be_val]

theorem be_u16_shape {l : List Nat} {p : Nat × List Nat} (h : be_u16 l = some p) :
    p.2 = l.drop 2 ∧ 2 ≤ l.length := by
  match l with
  | [] => simp [be_u16] at h
  | [_] => simp [be_u16] at h
  | b0 :: b1 :: r =>
    have hp : p = (b0 * 256 + b1, r) := by simpa [be_u16] using h.symm
    subst hp
    simp

theorem be_u8_shape {l : List Nat} {p : Nat × List Nat} (h : be_u8 l = some p) :
    p.2 = l.drop 1 ∧ 1 ≤ l.length := by
  match l with
  | [] => simp [be_u8] at h
  | b0 :: r =>
    have hp : p = (b0, r) := by simpa [be_u8] using h.symm
    subst hp
    simp

theorem MFSINodeType_parse_shape {l : List Nat} {p : Tmfs.MFSINodeType × List Nat}
    (h : Tmfs.MFSINodeType.parse l = some p) : p.2 = l.drop 1 ∧ 1 ≤ l.length := by
  match l with
  | [] => simp [Tmfs.MFSINodeType.parse, be_u8] at h
  | b :: r =>
    simp only [Tmfs.MFSINodeType.parse, be_u8] at h
    split at h <;> simp_all <;> simp [← h]

theorem countP_length (p : List Nat → Option (Tmfs.MFSINodeDataBlock × List Nat)) :
    ∀ (n : Nat) (input : List Nat) (q : List Tmfs.MFSINodeDataBlock × List Nat),
      Tmfs.countP p n input = some q → q.1.length = n
  | 0, input, q, h => by
    have hq : q = ([], input) := by simpa [Tmfs.countP] using h.symm
    simp [hq]
  | n + 1, input, q, h => by
    simp only [Tmfs.countP] at h
    split at h
    · exact Option.noConfusion h
    · rename_i x i1 hx
      split at h
      · exact Option.noConfusion h
      · rename_i xs i2 hxs
        have hq : q = (x :: xs, i2) := by simpa using h.symm
        have hlen := countP_length p n i1 (xs, i2) hxs
        simp only [hq, List.length_cons]
        simpa using hlen

theorem takeN_shape {n : Nat} {l : List Nat} {p : List Nat × List Nat}
    (h : takeN n l = some p) : p.2 = l.drop n ∧ n ≤ l.length := by
  unfold takeN at h
  split at h
  · have hp : p = (l.take n, l.drop n) := (Option.some.injEq _ _ ▸ h).symm
    exact ⟨by rw [hp], by assumption⟩
  · exact absurd h (by simp)

theorem tagBytes_shape {t l : List Nat} {p : List Nat × List Nat}
    (h : tagBytes t l = some p) : l.take t.length = t ∧ p.2 = l.drop t.length := by
  unfold tagBytes at h
  split at h
  · have hp : p = (t, l.drop t.length) := (Option.some.injEq _ _ ▸ h).symm
    exact ⟨by assumption, by rw [hp]⟩
  · exact absurd h (by simp)

/-! ## Claim theorems -/

theorem mod_ne_base (x base count : Nat) (hb : base < count) (h1 : base < x)
    (h2 : x < base + count) : x % count ≠ base := by
  rcases Nat.lt_or_ge x count with h | h
  · rw [Nat.mod_eq_of_lt h]
    omega
  · have hx : x % count = x - count := by
      rw [Nat.mod_eq_sub_mod h, Nat.mod_eq_of_lt (by omega)]
    omega

theorem cons_range_map_sector (a m : Nat) :
    OvitLib.sector_for_inode a ::
        (List.range m).map (fun j => OvitLib.sector_for_inode (a + 1 + j)) =
      (List.range (m + 1)).map (fun k => OvitLib.sector_for_inode (a + k)) := by
  have hf : (fun j => OvitLib.sector_for_inode (a + 1 + j)) =
      ((fun k => OvitLib.sector_for_inode (a + k)) ∘ Nat.succ) := by
    funext j
    simp only [Function.comp]
    exact congrArg OvitLib.sector_for_inode (by omega)
  rw [List.range_succ_eq_map, List.map_cons, List.map_map, hf]
  norm_num

theorem probe_loop_saturated (disk : Nat → Option Tmfs.MFSINode)
    (fsid count base : Nat) (recs : Nat → Tmfs.MFSINode)
    (hb : base < count)
    (hread : ∀ id, base ≤ id → id < base + count →
      disk (OvitLib.sector_for_inode id) = some (recs id))
    (hno : ∀ id, base ≤ id → id < base + count → (recs id).fsid ≠ fsid)
    (hflags : ∀ id, base ≤ id → id < base + count → (recs id).flags = 0x80000000) :
    ∀ (m id : Nat), base ≤ id → id + m + 1 = base + count →
      OvitLib.probe_loop disk fsid count base (m + 1) id (recs id) =
        ((List.range m).map (fun j => OvitLib.sector_for_inode (id + 1 + j)), some none)
  | 0, id, hle, heq => by
    have hmod : (id + 1) % count = base := by
      have h1 : id + 1 = base + count := by omega
      rw [h1, Nat.add_mod_right, Nat.mod_eq_of_lt hb]
    conv_lhs => rw [OvitLib.probe_loop]
    rw [if_neg (fun hc => hc.2.2 hmod)]
    rw [if_neg (hno id hle (by omega))]
    simp
  | m + 1, id, hle, heq => by
    have hid : id < base + count := by omega
    have hcond : (recs id).fsid ≠ fsid ∧ (recs id).flags = 0x80000000 ∧
        (id + 1) % count ≠ base :=
      ⟨hno id hle hid, hflags id hle hid,
       mod_ne_base (id + 1) base count hb (by omega) (by omega)⟩
    conv_lhs => rw [OvitLib.probe_loop]
    rw [if_pos hcond, hread (id + 1) (by omega) (by omega)]
    dsimp only
    rw [probe_loop_saturated disk fsid count base recs hb hread hno hflags m (id + 1)
      (by omega) (by omega)]
    rw [cons_range_map_sector (id + 1) m]



/-- Claim C3: whenever the inode record parser succeeds, the four bytes at offset 44
of the record are exactly the signature 0x91231ebc (so parsing fails unless
the signature appears at its fixed offset); when the flags word is
0x40000000 the remainder of the record (everything from offset 56 on) is
taken verbatim as inline data and numblocks/datablocks are zero/empty;
for any other flags value a 32-bit block count is read at offset 56 and the
extent list has exactly that many (sector, count) pairs. -/
theorem claim_C3 (input : List Nat) (pss sec : Nat)
    (h : (Tmfs.MFSINode.parse input pss sec).isSome = true) :
    (input.drop 44).take 4 = [0x91, 0x23, 0x1e, 0xbc] ∧
    (((Tmfs.MFSINode.parse input pss sec).get h).1.flags = 0x40000000 →
      ((Tmfs.MFSINode.parse input pss sec).get h).1.data = input.drop 56 ∧
      ((Tmfs.MFSINode.parse input pss sec).get h).1.numblocks = 0 ∧
      ((Tmfs.MFSINode.parse input pss sec).get h).1.datablocks = []) ∧
    (((Tmfs.MFSINode.parse input pss sec).get h).1.flags ≠ 0x40000000 →
      ((Tmfs.MFSINode.parse input pss sec).get h).1.data = [] ∧
      ((Tmfs.MFSINode.parse input pss sec).get h).1.numblocks =
        be_val ((input.drop 56).take 4) ∧
      ((Tmfs.MFSINode.parse input pss sec).get h).1.datablocks.length =
        ((Tmfs.MFSINode.parse input pss sec).get h).1.numblocks) := by
  obtain ⟨⟨ino, rest⟩, hp⟩ := Option.isSome_iff_exists.mp h
  have hget : (Tmfs.MFSINode.parse input pss sec).get h = (ino, rest) := by
    simp only [hp, Option.get_some]
  rw [hget]
  unfold Tmfs.MFSINode.parse at hp
  rcases h1 : be_u32 input with _ | ⟨fsid, i1⟩
  · rw [h1] at hp; exact Option.noConfusion hp
  rw [h1] at hp; dsimp only at hp
  have e1 : i1 = input.drop 4 := (be_u32_shape h1).2.1
  rcases h2 : be_u32 i1 with _ | ⟨refcount, i2⟩
  · rw [h2] at hp; exact Option.noConfusion hp
  rw [h2] at hp; dsimp only at hp
  have e2 : i2 = input.drop 8 := by
    have hs : i2 = List.drop 4 i1 := (be_u32_shape h2).2.1
    rw [hs, e1, List.drop_drop]
  rcases h3 : be_u32 i2 with _ | ⟨bootcycles, i3⟩
  · rw [h3] at hp; exact Option.noConfusion hp
  rw [h3] at hp; dsimp only at hp
  have e3 : i3 = input.drop 12 := by
    have hs : i3 = List.drop 4 i2 := (be_u32_shape h3).2.1
    rw [hs, e2, List.drop_drop]
  rcases h4 : be_u32 i3 with _ | ⟨bootsecs, i4⟩
  · rw [h4] at hp; exact Option.noConfusion hp
  rw [h4] at hp; dsimp only at hp
  have e4 : i4 = input.drop 16 := by
    have hs : i4 = List.drop 4 i3 := (be_u32_shape h4).2.1
    rw [hs, e3, List.drop_drop]
  rcases h5 : be_u32 i4 with _ | ⟨inode, i5⟩
  · rw [h5] at hp; exact Option.noConfusion hp
  rw [h5] at hp; dsimp only at hp
  have e5 : i5 = input.drop 20 := by
    have hs : i5 = List.drop 4 i4 := (be_u32_shape h5).2.1
    rw [hs, e4, List.drop_drop]
  rcases h6 : takeN 4 i5 with _ | ⟨res, i6⟩
  · rw [h6] at hp; exact Option.noConfusion hp
  rw [h6] at hp; dsimp only at hp
  have e6 : i6 = input.drop 24 := by
    have hs : i6 = List.drop 4 i5 := (takeN_shape h6).1
    rw [hs, e5, List.drop_drop]
  rcases h7 : be_u32 i6 with _ | ⟨size, i7⟩
  · rw [h7] at hp; exact Option.noConfusion hp
  rw [h7] at hp; dsimp only at hp
  have e7 : i7 = input.drop 28 := by
    have hs : i7 = List.drop 4 i6 := (be_u32_shape h7).2.1
    rw [hs, e6, List.drop_drop]
  rcases h8 : be_u32 i7 with _ | ⟨blocksize, i8⟩
  · rw [h8] at hp; exact Option.noConfusion hp
  rw [h8] at hp; dsimp only at hp
  have e8 : i8 = input.drop 32 := by
    have hs : i8 = List.drop 4 i7 := (be_u32_shape h8).2.1
    rw [hs, e7, List.drop_drop]
  rcases h9 : be_u32 i8 with _ | ⟨blockused, i9⟩
  · rw [h9] at hp; exact Option.noConfusion hp
  rw [h9] at hp; dsimp only at hp
  have e9 : i9 = input.drop 36 := by
    have hs : i9 = List.drop 4 i8 := (be_u32_shape h9).2.1
    rw [hs, e8, List.drop_drop]
  rcases h10 : be_u32 i9 with _ | ⟨lastmod, i10⟩
  · rw [h10] at hp; exact Option.noConfusion hp
  rw [h10] at hp; dsimp only at hp
  have e10 : i10 = input.drop 40 := by
    have hs : i10 = List.drop 4 i9 := (be_u32_shape h10).2.1
    rw [hs, e9, List.drop_drop]
  rcases h11 : Tmfs.MFSINodeType.parse i10 with _ | ⟨ty, i11⟩
  · rw [h11] at hp; exact Option.noConfusion hp
  rw [h11] at hp; dsimp only at hp
  have e11 : i11 = input.drop 41 := by
    have hs : i11 = List.drop 1 i10 := (MFSINodeType_parse_shape h11).1
    rw [hs, e10, List.drop_drop]
  rcases h12 : be_u8 i11 with _ | ⟨zone, i12⟩
  · rw [h12] at hp; exact Option.noConfusion hp
  rw [h12] at hp; dsimp only at hp
  have e12 : i12 = input.drop 42 := by
    have hs : i12 = List.drop 1 i11 := (be_u8_shape h12).1
    rw [hs, e11, List.drop_drop]
  rcases h13 : be_u16 i12 with _ | ⟨pad, i13⟩
  · rw [h13] at hp; exact Option.noConfusion hp
  rw [h13] at hp; dsimp only at hp
  have e13 : i13 = input.drop 44 := by
    have hs : i13 = List.drop 2 i12 := (be_u16_shape h13).1
    rw [hs, e12, List.drop_drop]
  rcases h14 : tagBytes [0x91, 0x23, 0x1e, 0xbc] i13 with _ | ⟨sig, i14⟩
  · rw [h14] at hp; exact Option.noConfusion hp
  rw [h14] at hp; dsimp only at hp
  have hsig : (input.drop 44).take 4 = [0x91, 0x23, 0x1e, 0xbc] := by
    have hs : i13.take 4 = [0x91, 0x23, 0x1e, 0xbc] := (tagBytes_shape h14).1
    rw [← e13]
    exact hs
  have e14 : i14 = input.drop 48 := by
    have hs : i14 = List.drop 4 i13 := (tagBytes_shape h14).2
    rw [hs, e13, List.drop_drop]
  rcases h15 : be_u32 i14 with _ | ⟨checksum, i15⟩
  · rw [h15] at hp; exact Option.noConfusion hp
  rw [h15] at hp; dsimp only at hp
  have e15 : i15 = input.drop 52 := by
    have hs : i15 = List.drop 4 i14 := (be_u32_shape h15).2.1
    rw [hs, e14, List.drop_drop]
  rcases h16 : be_u32 i15 with _ | ⟨flags, i16⟩
  · rw [h16] at hp; exact Option.noConfusion hp
  rw [h16] at hp; dsimp only at hp
  have e16 : i16 = input.drop 56 := by
    have hs : i16 = List.drop 4 i15 := (be_u32_shape h16).2.1
    rw [hs, e15, List.drop_drop]
  by_cases hf : flags = Tmfs.INODE_DATA_IN_HEADER
  · rw [if_pos hf] at hp
    obtain ⟨hR, -⟩ := (Prod.mk.injEq _ _ _ _).mp (Option.some.inj hp)
    subst hR
    refine ⟨hsig, fun _ => ⟨e16, rfl, rfl⟩, fun hne => absurd hf hne⟩
  · rw [if_neg hf] at hp
    rcases h17 : be_u32 i16 with _ | ⟨numblocks, i17⟩
    · rw [h17] at hp; exact Option.noConfusion hp
    rw [h17] at hp; dsimp only at hp
    have hnum : numblocks = be_val ((input.drop 56).take 4) := by
      have hv : numblocks = be_val (i16.take 4) := (be_u32_shape h17).1
      rw [e16] at hv
      exact hv
    rcases h18 : Tmfs.countP Tmfs.MFSINodeDataBlock.parse numblocks i17 with _ | ⟨blocks, i18⟩
    · rw [h18] at hp; exact Option.noConfusion hp
    rw [h18] at hp; dsimp only at hp
    have hlen : blocks.length = numblocks :=
      countP_length Tmfs.MFSINodeDataBlock.parse numblocks i17 (blocks, i18) h18
    obtain ⟨hR, -⟩ := (Prod.mk.injEq _ _ _ _).mp (Option.some.inj hp)
    subst hR
    exact ⟨hsig, fun hfl => absurd hfl hf, fun _ => ⟨rfl, hnum, hlen⟩⟩

/-- Claim C1 counterexample: fully occupied 5-slot inode table (sectors
1122..1131), fsid 1 absent, every probed record in-use.  The lookup does
return NotFound (Err) within 5 probes, but the probed sectors are
1124,1126,1128,1130,1132: the probe index is never reduced modulo the slot
count — slot 5 (sector 1132, one slot past the zone) is read, and the
wrapped-around slot (1 + 4) % 5 = 0 (sector 1122) is never probed, contrary
to the claim that the probe advances "wrapping modulo the slot count". -/
theorem claim_C1_counterexample :
    (OvitLib.get_inode_from_fsid fullDisk5 5 5 1).1 = [1124, 1126, 1128, 1130, 1132] ∧
    (OvitLib.get_inode_from_fsid fullDisk5 5 5 1).2 = some none ∧
    OvitLib.sector_for_inode 5 ∈ (OvitLib.get_inode_from_fsid fullDisk5 5 5 1).1 ∧
    OvitLib.sector_for_inode ((OvitLib.fsid_hash 1 5 + 4) % 5) ∉
      (OvitLib.get_inode_from_fsid fullDisk5 5 5 1).1 := by
  decide

/-- Claim C1 (amended): with the requested fsid absent, every probed slot
in-use (flags exactly 0x80000000), the base record's inode field equal to the
base index, and the base index below the slot count, the lookup terminates
within `inode_count` probe steps and returns NotFound (Err); the probe
advances the logical index by 1 (+2 physical sectors) per step WITHOUT
wrapping — the wraparound appears only in the termination test
`(current_inode_id + 1) % inode_count ≠ first_inode.inode` — so the probed
slots are exactly base, base+1, ..., base+inode_count-1, reading up to
inode_count-1 slots past the inode zone (bounded, not unbounded). -/
theorem claim_C1 (disk : Nat → Option Tmfs.MFSINode) (inode_count fsid base : Nat)
    (recs : Nat → Tmfs.MFSINode)
    (hbase : base = OvitLib.fsid_hash fsid inode_count)
    (hb : base < inode_count)
    (hread : ∀ id, base ≤ id → id < base + inode_count →
      disk (OvitLib.sector_for_inode id) = some (recs id))
    (hno : ∀ id, base ≤ id → id < base + inode_count → (recs id).fsid ≠ fsid)
    (hflags : ∀ id, base ≤ id → id < base + inode_count →
      (recs id).flags = 0x80000000)
    (hinode : (recs base).inode = base) :
    OvitLib.get_inode_from_fsid disk inode_count inode_count fsid =
      ((List.range inode_count).map (fun k => OvitLib.sector_for_inode (base + k)),
       some none) := by
  subst hbase
  obtain ⟨m, hm⟩ : ∃ m, inode_count = m + 1 := ⟨inode_count - 1, by omega⟩
  unfold OvitLib.get_inode_from_fsid
  dsimp only
  rw [hread (OvitLib.fsid_hash fsid inode_count) (Nat.le_refl _) (by omega)]
  dsimp only
  rw [if_neg (hno (OvitLib.fsid_hash fsid inode_count) (Nat.le_refl _) (by omega)),
    hinode]
  have hsat := probe_loop_saturated disk fsid inode_count
    (OvitLib.fsid_hash fsid inode_count) recs hb hread hno hflags m
    (OvitLib.fsid_hash fsid inode_count) (Nat.le_refl _) (by omega)
  rw [hm] at hsat ⊢
  rw [hsat]
  dsimp only
  rw [cons_range_map_sector]

/-- Claim C1 witness: the amended statement applied to the concrete fully
occupied 5-slot table. -/
theorem claim_C1_witness :
    OvitLib.get_inode_from_fsid fullDisk5 5 5 1 =
      ((List.range 5).map (fun k => OvitLib.sector_for_inode (1 + k)), some none) :=
  claim_C1 fullDisk5 5 1 1 (fun id => slotRec id) (by decide) (by decide)
    (fun id h1 h2 => by interval_cases id <;> decide)
    (fun id h1 h2 => by interval_cases id <;> decide)
    (fun id h1 h2 => by interval_cases id <;> decide)
    (by decide)

/-- Claim C2: the lookup first probes the slot with index
`(fsid * 0x106d9) &&& inode_count` — the bitmask reduction `& inode_count`
taken literally from the source — reading physical sector
`2 * base_index + 1122`; when the record read there carries the requested
fsid, the lookup returns it with exactly that one probed sector. -/
theorem claim_C2 (disk : Nat → Option Tmfs.MFSINode) (fuel inode_count fsid : Nat)
    (r : Tmfs.MFSINode)
    (hread : disk (2 * ((fsid * 0x106d9) &&& inode_count) + 1122) = some r)
    (hfsid : r.fsid = fsid) :
    OvitLib.get_inode_from_fsid disk fuel inode_count fsid =
      ([2 * ((fsid * 0x106d9) &&& inode_count) + 1122], some (some r)) := by
  unfold OvitLib.get_inode_from_fsid
  dsimp only
  rw [show OvitLib.sector_for_inode (OvitLib.fsid_hash fsid inode_count) =
    2 * ((fsid * 0x106d9) &&& inode_count) + 1122 from rfl]
  rw [hread]
  dsimp only
  rw [if_pos hfsid]

/-- Claim C2 witness: a table of 5 slots with fsid 1001 stored at its hashed
base slot (index 1, physical sector 1124) is found in one probe. -/
theorem claim_C2_witness :
    OvitLib.get_inode_from_fsid
        (fun s => if s = 1124 then some (slotRec 1) else none) 0 5 1001 =
      ([2 * ((1001 * 0x106d9) &&& 5) + 1122], some (some (slotRec 1))) :=
  claim_C2 (fun s => if s = 1124 then some (slotRec 1) else none) 0 5 1001
    (slotRec 1) (by decide) (by decide)

/-- Claim C3 witness: the sample raw inode record parses successfully and its
signature bytes sit at offset 44. -/
theorem claim_C3_witness :
    (sampleInodeBytes.drop 44).take 4 = [0x91, 0x23, 0x1e, 0xbc] ∧
    (Tmfs.MFSINode.parse sampleInodeBytes 100 7).isSome = true :=
  ⟨(claim_C3 sampleInodeBytes 100 7 (by decide)).1, by decide⟩

theorem unpack_lo (x y : Nat) (hy : y < 256) : (x * 256 + y) % 256 = y := by omega

theorem unpack_hi (x y : Nat) (hy : y < 256) : (x * 256 + y) / 256 = x := by omega

theorem pairOut_invol (le sw : Bool) (a b : Nat) (ha : a < 256) (hb : b < 256) :
    OvitMod.pairOut le sw (OvitMod.pairOut le sw a b).1 (OvitMod.pairOut le sw a b).2 =
      (a, b) := by
  cases le <;> cases sw <;>
    simp [OvitMod.pairOut, unpack_lo a b hb, unpack_hi a b hb,
      unpack_lo b a ha, unpack_hi b a ha]

theorem correct_byte_order_invol (le sw : Bool) :
    ∀ (buf : List Nat), buf.length % 2 = 0 → (∀ b ∈ buf, b < 256) →
      OvitMod.correct_byte_order le (OvitMod.correct_byte_order le buf sw) sw = buf
  | [], _, _ => rfl
  | [a], h, _ => by simp at h
  | a :: b :: rest, h, hmem => by
    have ih := correct_byte_order_invol le sw rest
      (by simp [List.length_cons] at h; omega)
      (fun x hx => hmem x (by simp [hx]))
    have hinv := pairOut_invol le sw a b (hmem a (by simp)) (hmem b (by simp))
    simp only [OvitMod.correct_byte_order]
    rw [hinv, ih]

theorem cons_range_map {α : Type} (g : Nat → α) (m : Nat) :
    g 0 :: (List.range m).map (fun j => g (j + 1)) = (List.range (m + 1)).map g := by
  rw [List.range_succ_eq_map, List.map_cons, List.map_map]
  rfl

theorem walk_zonemaps_chain (read_blocks : Nat → Nat → Option (List Nat))
    (le swapped : Bool) (app_start : Nat) :
    ∀ (zs : List OvitMod.MFSZoneMap) (ptr size : Nat) (acc : List OvitMod.MFSZoneMap),
      OvitMod.zone_chain read_blocks le swapped app_start ptr size zs →
      OvitMod.walk_zonemaps read_blocks le swapped app_start (zs.length + 1) ptr size acc =
        some (some (acc ++ zs))
  | [], ptr, size, acc, hchain => by
    conv_lhs => rw [OvitMod.walk_zonemaps]
    rcases hchain with h0 | hr
    · rw [if_pos h0]
      simp
    · by_cases h0 : ptr = 0
      · rw [if_pos h0]
        simp
      · rw [if_neg h0, hr]
        simp
  | z :: zs, ptr, size, acc, hchain => by
    obtain ⟨hptr, hbind, hrest⟩ := hchain
    rw [Option.bind_eq_some] at hbind
    obtain ⟨blocks, hread, hparse⟩ := hbind
    simp only [List.length_cons]
    conv_lhs => rw [OvitMod.walk_zonemaps]
    rw [if_neg hptr, hread]
    dsimp only
    rw [hparse]
    dsimp only
    rw [walk_zonemaps_chain read_blocks le swapped app_start zs z.next_zonemap_ptr
      z.next_zonemap_size (acc ++ [z]) hrest]
    simp

theorem iter_collect_full (get_block : Nat → Option (List Nat)) (pss : Nat) :
    ∀ (K first last : Nat) (f : Nat → Tmfs.MFSINode), last + 1 = first + 2 * K →
      (∀ i, i < K →
        Tmfs.from_path_at_sector get_block pss (first + 2 * i) = some (f i)) →
      Tmfs.iter_collect get_block (K + 1) ⟨pss, first, last⟩ = (List.range K).map f
  | 0, first, last, f, hlast, _ => by
    conv_lhs => rw [Tmfs.iter_collect]
    simp only [Tmfs.iter_next]
    rw [if_neg (fun hne => hne (by omega))]
    simp
  | K + 1, first, last, f, hlast, hread => by
    have hne : first ≠ last + 1 := by omega
    have hrd : Tmfs.from_path_at_sector get_block pss first = some (f 0) := by
      simpa using hread 0 (by omega)
    conv_lhs => rw [Tmfs.iter_collect]
    simp only [Tmfs.iter_next]
    rw [if_pos hne, hrd]
    dsimp only
    rw [iter_collect_full get_block pss K (first + 2) last (fun i => f (i + 1))
      (by omega)
      (fun i hi => by
        have hh := hread (i + 1) (by omega)
        rw [show first + 2 + 2 * i = first + 2 * (i + 1) from by ring]
        exact hh)]
    exact cons_range_map f K

theorem iter_collect_stops (get_block : Nat → Option (List Nat)) (pss : Nat) :
    ∀ (j K first last : Nat) (f : Nat → Tmfs.MFSINode), last + 1 = first + 2 * K →
      j < K →
      (∀ i, i < j →
        Tmfs.from_path_at_sector get_block pss (first + 2 * i) = some (f i)) →
      Tmfs.from_path_at_sector get_block pss (first + 2 * j) = none →
      Tmfs.iter_collect get_block (K + 1) ⟨pss, first, last⟩ = (List.range j).map f
  | 0, K, first, last, f, hlast, hjK, _, hfail => by
    have hne : first ≠ last + 1 := by omega
    have hf0 : Tmfs.from_path_at_sector get_block pss first = none := by
      simpa using hfail
    conv_lhs => rw [Tmfs.iter_collect]
    simp only [Tmfs.iter_next]
    rw [if_pos hne, hf0]
    simp
  | j + 1, K, first, last, f, hlast, hjK, hread, hfail => by
    obtain ⟨K2, rfl⟩ : ∃ K2, K = K2 + 1 := ⟨K - 1, by omega⟩
    have hne : first ≠ last + 1 := by omega
    have hrd : Tmfs.from_path_at_sector get_block pss first = some (f 0) := by
      simpa using hread 0 (by omega)
    conv_lhs => rw [Tmfs.iter_collect]
    simp only [Tmfs.iter_next]
    rw [if_pos hne, hrd]
    dsimp only
    rw [iter_collect_stops get_block pss j K2 (first + 2) last (fun i => f (i + 1))
      (by omega) (by omega)
      (fun i hi => by
        have hh := hread (i + 1) (by omega)
        rw [show first + 2 + 2 * i = first + 2 * (i + 1) from by ring]
        exact hh)
      (by
        rw [show first + 2 + 2 * j = first + 2 * (j + 1) from by ring]
        exact hfail)]
    exact cons_range_map f j

/-- Claim C4: seeded from the volume header's zone-map pointer, the zone-map
stage yields the chain nodes in link order; it stops normally at a node whose
`next_zonemap_ptr` is 0, and when a block-range read for the next node fails
it stops early without aborting, keeping every zone map produced before the
failure (the `zone_chain` hypothesis states exactly that the listed nodes
follow the links and that the chain ends with a zero pointer or a failed
read). -/
theorem claim_C4 (read_blocks : Nat → Nat → Option (List Nat)) (le swapped : Bool)
    (app_start zonemap_ptr : Nat) (first : OvitMod.MFSZoneMap)
    (zs : List OvitMod.MFSZoneMap)
    (hfirst : (read_blocks (app_start + zonemap_ptr) 1).bind
      (fun blocks =>
        OvitMod.MFSZoneMap.from_bytes (OvitMod.correct_byte_order le blocks swapped)) =
      some first)
    (hchain : OvitMod.zone_chain read_blocks le swapped app_start
      first.next_zonemap_ptr first.next_zonemap_size zs) :
    OvitMod.zone_stage read_blocks le swapped app_start zonemap_ptr (zs.length + 1) =
      some (some (first :: zs)) := by
  rw [Option.bind_eq_some] at hfirst
  obtain ⟨blocks, hread, hparse⟩ := hfirst
  unfold OvitMod.zone_stage
  rw [hread]
  dsimp only
  rw [hparse]
  dsimp only
  rw [walk_zonemaps_chain read_blocks le swapped app_start zs _ _ [first] hchain]
  simp

/-- Claim C4 witness: a synthetic 3-node chain (pointers 5 → 7 → 9, the last
node with `next_zonemap_ptr = 0`) yields exactly the 3 zones in link order. -/
theorem claim_C4_witness :
    OvitMod.zone_stage rbChain true false 100 5 3 =
      some (some [zmRec 7 1, zmRec 9 1, zmRec 0 0]) :=
  claim_C4 rbChain true false 100 5 (zmRec 7 1) [zmRec 9 1, zmRec 0 0]
    (by decide) ⟨by decide, by decide, by decide, by decide, Or.inl (by decide)⟩

set_option maxRecDepth 8192 in
/-- Claim C5 counterexample: a volume-header block carrying the 64-bit magic
`0xEBBAFEED` at bytes 4..=7 is rejected by `MFSVolumeHeader::parse` (its
`tag` accepts only `0xABBAFEED`), so parsing does not accept both documented
magic constants. -/
theorem claim_C5_counterexample :
    (Mfs.MFSVolumeHeader.parse ebbaBlock).isNone = true ∧
    (ebbaBlock.drop 4).take 4 = [0xEB, 0xBA, 0xFE, 0xED] := by
  constructor
  · decide
  · decide

set_option maxRecDepth 8192 in
/-- Claim C5 (amended): the nom volume-header parser accepts exactly one
magic constant — whenever it succeeds, the four bytes at offset 4 are
`0xABBAFEED` — and `0xEBBAFEED` is rejected (see the counterexample); no
layout selection happens.  The `from_bytes` flavour in src/ovit/mod.rs
performs no magic validation at all: it accepts a block whose magic word is
`0xDEADBEEF`, which is neither constant. -/
theorem claim_C5 :
    (∀ (input : List Nat) (p : Mfs.MFSVolumeHeader × List Nat),
      Mfs.MFSVolumeHeader.parse input = some p →
        (input.drop 4).take 4 = [0xAB, 0xBA, 0xFE, 0xED]) ∧
    (OvitMod.MFSVolumeHeader.from_bytes deadbeefBlock).isSome = true ∧
    (deadbeefBlock.drop 4).take 4 = [0xDE, 0xAD, 0xBE, 0xEF] := by
  refine ⟨?_, by decide, by decide⟩
  intro input p hp
  unfold Mfs.MFSVolumeHeader.parse at hp
  rcases h1 : be_u32 input with _ | ⟨state, i1⟩
  · rw [h1] at hp; exact Option.noConfusion hp
  rw [h1] at hp; dsimp only at hp
  have e1 : i1 = input.drop 4 := (be_u32_shape h1).2.1
  rcases h2 : tagBytes [0xAB, 0xBA, 0xFE, 0xED] i1 with _ | ⟨tg, i2⟩
  · rw [h2] at hp; exact Option.noConfusion hp
  have hs : i1.take 4 = [0xAB, 0xBA, 0xFE, 0xED] := (tagBytes_shape h2).1
  rw [← e1]
  exact hs

set_option maxRecDepth 8192 in
/-- Claim C5 witness: a block with the 32-bit magic `0xABBAFEED` parses, and
the amended theorem reads that magic back off the block. -/
theorem claim_C5_witness :
    (abbaBlock.drop 4).take 4 = [0xAB, 0xBA, 0xFE, 0xED] ∧
    (Mfs.MFSVolumeHeader.parse abbaBlock).isSome = true :=
  ⟨claim_C5.1 abbaBlock _ (Option.some_get (by decide)).symm, by decide⟩

set_option maxRecDepth 8192 in
/-- Claim C6 counterexample: a 512-byte block whose first two bytes are
`0xFF 0xFF` (not "PM") makes `Partition::new` panic — the signature is
extracted with `String::from_utf8(...).expect(...)` and `0xFF 0xFF` is not
valid UTF-8 — instead of returning an error.  `none` is the modelled panic. -/
theorem claim_C6_counterexample :
    (OvitMod.Partition.new badSigBlock).isNone = true ∧
    badSigBlock.length = 512 ∧
    badSigBlock.take 2 ≠ [0x50, 0x4D] := by
  refine ⟨by decide, by decide, by decide⟩

/-- Claim C6 (amended): for every 512-byte block whose first two bytes are
valid UTF-8 but differ from "PM", `Partition::new` returns
`Err("Invalid signature in sector")` without panicking; when the two bytes
are not valid UTF-8 the signature extraction panics instead (see the
counterexample). -/
theorem claim_C6 (bytes : List Nat) (hlen : bytes.length = 512)
    (hval : OvitMod.validUtf8 (bytes.take 2) = true)
    (hsig : bytes.take 2 ≠ [0x50, 0x4D]) :
    OvitMod.Partition.new bytes = some (Except.error "Invalid signature in sector") := by
  have hg : OvitMod.get_string_from_bytes_range bytes 0 1 = some (bytes.take 2) := by
    unfold OvitMod.get_string_from_bytes_range
    rw [if_pos ⟨by omega, by omega⟩]
    rw [show (bytes.drop 0).take (1 + 1 - 0) = bytes.take 2 from by simp]
    rw [if_pos hval]
  unfold OvitMod.Partition.new
  rw [hg]
  dsimp only
  rw [if_pos hsig]

set_option maxRecDepth 8192 in
/-- Claim C6 witness: the amended statement applied to a block starting with
the ASCII bytes "AB". -/
theorem claim_C6_witness :
    OvitMod.Partition.new abSigBlock =
      some (Except.error "Invalid signature in sector") :=
  claim_C6 abSigBlock (by decide) (by decide) (by decide)

/-- Claim C7: when the partition map holds no partition of type "MFS",
`find` returns `None` — and both copies of `TivoDrive::from_disk_image` call
`.unwrap()` on that result, so opening the drive panics instead of returning
the NoMfsPartition error the claim describes. -/
theorem claim_C7 :
    OvitMod.find_mfs_partition [applefreePart] = none ∧
    applefreePart.type ≠ [0x4D, 0x46, 0x53] := by
  refine ⟨by decide, by decide⟩

/-- Claim C8: an inode iterator over a zone of K logical slots (its state
starting at the zone's first sector, with `last = first + 2K - 1`) yields
exactly K inodes when every slot reads and parses, advancing 2 physical
sectors per step and never reading a sector beyond `last`; and if the read or
parse at step j fails, iteration ends there as exhaustion, yielding exactly
the j inodes read before the failure. -/
theorem claim_C8 (get_block : Nat → Option (List Nat)) (pss first last K : Nat)
    (f : Nat → Tmfs.MFSINode)
    (hlast : last + 1 = first + 2 * K) :
    ((∀ i, i < K →
        Tmfs.from_path_at_sector get_block pss (first + 2 * i) = some (f i)) →
      Tmfs.iter_collect get_block (K + 1) ⟨pss, first, last⟩ = (List.range K).map f ∧
      (∀ i, i < K → first + 2 * i ≤ last)) ∧
    (∀ j, j < K →
      (∀ i, i < j →
        Tmfs.from_path_at_sector get_block pss (first + 2 * i) = some (f i)) →
      Tmfs.from_path_at_sector get_block pss (first + 2 * j) = none →
      Tmfs.iter_collect get_block (K + 1) ⟨pss, first, last⟩ = (List.range j).map f) :=
  ⟨fun hreads =>
    ⟨iter_collect_full get_block pss K first last f hlast hreads,
     fun i hi => by omega⟩,
   fun j hj hreads hfail =>
    iter_collect_stops get_block pss j K first last f hlast hj hreads hfail⟩

/-- Claim C8 witness: a 2-slot zone at sectors 1000..1003 yields exactly the
2 inodes at sectors 1000 and 1002. -/
theorem claim_C8_witness :
    Tmfs.iter_collect gb8 3 ⟨0, 1000, 1003⟩ =
      (List.range 2).map (fun i => sampleParsedInode 0 (1000 + 2 * i)) ∧
    (∀ i, i < 2 → 1000 + 2 * i ≤ 1003) :=
  (claim_C8 gb8 0 1000 1003 2 (fun i => sampleParsedInode 0 (1000 + 2 * i))
      (by decide)).1
    (fun i hi => by interval_cases i <;> decide)

/-- Claim C9: double byte-order normalization with the same swap flag is the
identity on every even-length byte buffer, for both flag values and on
either host endianness (`le`). -/
theorem claim_C9 (le is_byte_swapped : Bool) (buf : List Nat)
    (heven : buf.length % 2 = 0) (hbytes : ∀ b ∈ buf, b < 256) :
    OvitMod.correct_byte_order le
        (OvitMod.correct_byte_order le buf is_byte_swapped) is_byte_swapped = buf :=
  correct_byte_order_invol le is_byte_swapped buf heven hbytes

/-- Claim C9 witness: a concrete 4-byte buffer normalized twice. -/
theorem claim_C9_witness :
    OvitMod.correct_byte_order true
        (OvitMod.correct_byte_order true [0x12, 0x34, 0x56, 0x78] false) false =
      [0x12, 0x34, 0x56, 0x78] :=
  claim_C9 true false [0x12, 0x34, 0x56, 0x78] (by decide) (by decide)

/-- Claim C10: for every image, block location and count, the multi-block
read succeeds with a buffer of exactly 512 * count bytes (the underlying
positioned read cannot fail in the pure image model; reading at or past
end-of-file is a short read, not an error), and when the location is at or
past the end of the image the returned buffer is entirely the zero fill. -/
theorem claim_C10 (image : List Nat) (location count : Nat) :
    ∃ buf, OvitMod.get_blocks_from_drive image location count = some buf ∧
      buf.length = 512 * count ∧
      (image.length ≤ location * 512 → buf = List.replicate (512 * count) 0) := by
  refine ⟨OvitMod.read_at image (location * 512) (List.replicate (512 * count) 0),
    rfl, ?_, ?_⟩
  · unfold OvitMod.read_at
    simp only [List.length_append, List.length_take, List.length_drop,
      List.length_replicate]
    omega
  · intro hle
    unfold OvitMod.read_at
    rw [List.drop_eq_nil_of_le (by omega)]
    simp

set_option maxRecDepth 8192 in
/-- Claim C10 witness: reading 2 blocks at location 3 of a 2-byte image
yields a successfully returned zero-filled 1024-byte buffer. -/
theorem claim_C10_witness :
    OvitMod.get_blocks_from_drive [7, 7] 3 2 = some (List.replicate (512 * 2) 0) := by
  obtain ⟨buf, h1, h2, h3⟩ := claim_C10 [7, 7] 3 2
  rw [h1, h3 (by decide)]

end TivoMfs
